import Mathlib

/-!
Verification development for the MtOfSmartICE crawler repository.

This file gives a shallow embedding, in Lean 4, of the pure core of the
repository's data-handling code:

* the local SQLite record store's conditional-merge write paths
  (`database/db_manager.py`: `save_equity_package_sales`,
  `save_business_summary`, `save_dish_sales`);
* the header-grid flattener and row parser of the business-summary crawler
  (`src/crawlers/guanjia/business_summary.py`: `_flatten_headers`,
  `_parse_row`, `_is_valid_date`) together with the numeric coercion of
  `src/crawlers/base_crawler.py` (`parse_number`);
* the remote (Supabase) store's identity resolution and batch write
  (`database/supabase_manager.py`: `get_restaurant_id_by_name`,
  `save_equity_package_sales`);
* the sync reconciler (`scripts/sync_databases.py`:
  `pull_equity_package_sales`, `push_equity_package_sales`).

Modelling conventions:

* SQLite tables become association lists from the table's natural key to a
  row structure; `CURRENT_TIMESTAMP` becomes an explicit `now : Nat`
  argument threaded through each write.
* Python `float` values become `ℚ` (the code only stores and compares
  them; no float-specific rounding is exercised), Python `int` becomes `ℤ`.
* Python string operations (`strip`, `replace` of single characters,
  `split`, `isdigit`, `int(...)`, `float(...)`) are re-implemented
  structurally on `List Char` so that concrete runs reduce inside the
  kernel.
* Exceptions are modelled where a claim needs them: the `sqlite3.Error`
  catch-all of the batch writers is modelled by a fault oracle
  `err : Nat → Bool` saying whether the database raises while the i-th
  record of the batch is being processed.
-/

namespace MtSpec

/-! ## Association-list primitives (model of keyed SQLite tables) -/

/-- First value bound to key `k`, scanning left to right (the model of a
`SELECT ... WHERE key = ?` on a table whose key column is unique). -/
def alistFind {κ β : Type} [DecidableEq κ] (k : κ) : List (κ × β) → Option β
  | [] => none
  | (k', v) :: rest => if k' = k then some v else alistFind k rest

/-- Replace the binding of key `k` in place, or append it at the end if the
key is absent (the model of `UPDATE ... WHERE key = ?` / `INSERT`). -/
def alistSet {κ β : Type} [DecidableEq κ] (k : κ) (v : β) : List (κ × β) → List (κ × β)
  | [] => [(k, v)]
  | (k', v') :: rest => if k' = k then (k, v) :: rest else (k', v') :: alistSet k v rest

/-! ## Python string and number semantics -/

/-- Python `str.strip()` restricted to ASCII whitespace. -/
def pyStripList (l : List Char) : List Char :=
  ((l.dropWhile Char.isWhitespace).reverse.dropWhile Char.isWhitespace).reverse

/-- Python's `s.replace(old, '')` for a single character `old`:
every occurrence is removed. -/
def removeChars (bad : List Char) (l : List Char) : List Char :=
  l.filter (fun c => ¬ bad.contains c)

/-- Python's `s.replace('/', '-')` (single character to single character). -/
def replaceChar (old new : Char) (l : List Char) : List Char :=
  l.map (fun c => if c = old then new else c)

/-- Python `s.split(sep)` for a single-character separator: splits on every
occurrence, keeping empty pieces (`"".split('-') = [""]`). -/
def splitOnChar (sep : Char) : List Char → List (List Char)
  | [] => [[]]
  | c :: rest =>
    match splitOnChar sep rest with
    | [] => [[]]
    | piece :: pieces =>
      if c = sep then [] :: piece :: pieces else (c :: piece) :: pieces

/-- Numeric value of a list of decimal digits (most significant first). -/
def digitsToNat (l : List Char) : Nat :=
  l.foldl (fun n c => n * 10 + (c.toNat - 48)) 0

/-- Python `int(s)`: strip whitespace, optional sign, then at least one
decimal digit; anything else raises `ValueError`, modelled as `none`.
(Underscore digit grouping and non-ASCII digits are outside the model.) -/
def pyInt (s : String) : Option Int :=
  match pyStripList s.toList with
  | '-' :: rest =>
    if rest ≠ [] ∧ rest.all Char.isDigit then some (-(digitsToNat rest : Int)) else none
  | '+' :: rest =>
    if rest ≠ [] ∧ rest.all Char.isDigit then some (digitsToNat rest : Int) else none
  | rest =>
    if rest ≠ [] ∧ rest.all Char.isDigit then some (digitsToNat rest : Int) else none

/-- Exponent tail of a Python float literal: empty, or `e`/`E` followed by an
optionally signed non-empty digit string. -/
def pyFloatExp : List Char → Option Int
  | [] => some 0
  | e :: rest =>
    if e = 'e' ∨ e = 'E' then
      match rest with
      | '-' :: ds => if ds ≠ [] ∧ ds.all Char.isDigit then some (-(digitsToNat ds : Int)) else none
      | '+' :: ds => if ds ≠ [] ∧ ds.all Char.isDigit then some (digitsToNat ds : Int) else none
      | ds => if ds ≠ [] ∧ ds.all Char.isDigit then some (digitsToNat ds : Int) else none
    else none

/-- The rational `D * 10 ^ (e - fracLen)`, built from integer data only so
that concrete values reduce inside the kernel. -/
def decValue (D : Nat) (fracLen : Nat) (e : Int) : ℚ :=
  let shift : Int := e - fracLen
  if 0 ≤ shift then ((D * 10 ^ shift.toNat : Nat) : ℚ) else mkRat D (10 ^ (-shift).toNat)

/-- Mantissa and exponent of an unsigned Python float literal:
`digits [. digits] [exp]` or `. digits [exp]`. The value is
`digits(int ++ frac) * 10 ^ (exp - |frac|)`. -/
def pyFloatUnsigned (l : List Char) : Option ℚ :=
  let ip := l.takeWhile Char.isDigit
  let rest := l.dropWhile Char.isDigit
  match rest with
  | '.' :: rest2 =>
    let fp := rest2.takeWhile Char.isDigit
    let rest3 := rest2.dropWhile Char.isDigit
    if ip = [] ∧ fp = [] then none
    else
      match pyFloatExp rest3 with
      | some e => some (decValue (digitsToNat (ip ++ fp)) fp.length e)
      | none => none
  | _ =>
    if ip = [] then none
    else
      match pyFloatExp rest with
      | some e => some (decValue (digitsToNat ip) 0 e)
      | none => none

/-- Python `float(s)` on the decimal grammar: strip whitespace, optional
sign, then an unsigned decimal with optional fraction and exponent.
`none` models `ValueError`. (`inf`/`nan` spellings and underscore grouping
are outside the model; the crawler's inputs are report cells.) -/
def pyFloat (s : String) : Option ℚ :=
  match pyStripList s.toList with
  | '-' :: rest => (pyFloatUnsigned rest).map (fun q => -q)
  | '+' :: rest => pyFloatUnsigned rest
  | rest => pyFloatUnsigned rest

/-- Python `str.isdigit()` restricted to ASCII: non-empty and all digits. -/
def pyIsdigit (s : String) : Bool :=
  s.toList ≠ [] ∧ s.toList.all Char.isDigit

/-- Python truncation `int(f)` of a float, toward zero. -/
def pyTrunc (q : ℚ) : Int := q.num.tdiv q.den

/-- Python `needle in haystack` on strings: substring containment. -/
def pyInStr (needle hay : String) : Bool :=
  hay.toList.tails.any (fun t => needle.toList.isPrefixOf t)

/-! ## Local record store (`database/db_manager.py`)

Each `save_*` method walks its batch in input order, and per record either
inserts, conditionally updates, or skips.  The three outcome counters are
returned as a stats dictionary. -/

namespace DB

/-- Outcome of processing one record of a batch. -/
inductive WriteOutcome
  | inserted
  | updated
  | skipped
deriving DecidableEq, Repr

/-- The `{"inserted": N, "updated": N, "skipped": N}` stats dictionary. -/
structure Stats where
  inserted : Nat
  updated : Nat
  skipped : Nat
deriving DecidableEq, Repr

def Stats.bump (s : Stats) : WriteOutcome → Stats
  | .inserted => { s with inserted := s.inserted + 1 }
  | .updated => { s with updated := s.updated + 1 }
  | .skipped => { s with skipped := s.skipped + 1 }

/-- The `for record in records:` loop shared by the three save methods:
thread the database state and bump one stats counter per record. -/
def runBatch {σ ρ : Type} (step : σ → ρ → σ × WriteOutcome) :
    σ → Stats → List ρ → σ × Stats
  | s, stats, [] => (s, stats)
  | s, stats, r :: rest =>
    let (s', o) := step s r
    runBatch step s' (stats.bump o) rest

/-- The same loop inside the `try: ... except sqlite3.Error:` wrapper.
`err i = true` models "the database raises `sqlite3.Error` while the i-th
record of the batch is being processed"; the exception is caught by the
method, which returns the stats accumulated so far. -/
def runBatchFaulty {σ ρ : Type} (step : σ → ρ → σ × WriteOutcome) (err : Nat → Bool) :
    σ → Stats → List ρ → Stats
  | _, stats, [] => stats
  | s, stats, r :: rest =>
    if err 0 then stats
    else
      let (s', o) := step s r
      runBatchFaulty step (fun i => err (i + 1)) s' (stats.bump o) rest

/-- Index of the first record whose processing faults, or the batch length
if none does. -/
def firstFault (err : Nat → Bool) : Nat → Nat
  | 0 => 0
  | n + 1 => if err 0 then 0 else firstFault (fun i => err (i + 1)) n + 1

/-! ### `save_equity_package_sales` (db_manager.py lines 307-432) -/

/-- One input record dictionary: `record['refund_quantity']` and
`record['refund_amount']` are read with `record.get(..., default)`, so they
are optional. -/
structure EquityRecord where
  org_code : String
  store_name : String
  date : String
  package_name : String
  unit_price : ℚ
  quantity_sold : ℤ
  total_sales : ℚ
  refund_quantity : Option ℤ
  refund_amount : Option ℚ
deriving DecidableEq, Repr

/-- A row of `mt_stores` (keyed by `org_code`). -/
structure StoreRow where
  store_name : String
  created_at : Nat
  updated_at : Nat
deriving DecidableEq, Repr

/-- A row of `mt_equity_package_sales`, keyed by the natural key
`(org_code, date, package_name)` (held in the association list). -/
structure EquityRow where
  unit_price : ℚ
  quantity_sold : ℤ
  total_sales : ℚ
  refund_quantity : ℤ
  refund_amount : ℚ
  created_at : Nat
  updated_at : Nat
deriving DecidableEq, Repr

abbrev EquityKey := String × String × String

structure EquityDB where
  mt_stores : List (String × StoreRow)
  mt_equity_package_sales : List (EquityKey × EquityRow)
deriving DecidableEq, Repr

/-- `INSERT INTO mt_stores ... ON CONFLICT(org_code) DO UPDATE SET
store_name = excluded.store_name, updated_at = CURRENT_TIMESTAMP`. -/
def upsertStore (now : Nat) (stores : List (String × StoreRow))
    (org_code store_name : String) : List (String × StoreRow) :=
  match alistFind org_code stores with
  | none => alistSet org_code ⟨store_name, now, now⟩ stores
  | some old => alistSet org_code ⟨store_name, old.created_at, now⟩ stores

/-- The full EquityRow written by the INSERT / UPDATE branches: all non-key
columns come from the incoming record, `updated_at` is bumped to `now`. -/
def equityRowOf (r : EquityRecord) (created now : Nat) : EquityRow :=
  ⟨r.unit_price, r.quantity_sold, r.total_sales,
   r.refund_quantity.getD 0, r.refund_amount.getD 0, created, now⟩

/-- The per-record body of `save_equity_package_sales`'s loop. -/
def processEquityRecord (now : Nat) (db : EquityDB) (r : EquityRecord) :
    EquityDB × WriteOutcome :=
  let stores := upsertStore now db.mt_stores r.org_code r.store_name
  let key : EquityKey := (r.org_code, r.date, r.package_name)
  match alistFind key db.mt_equity_package_sales with
  | none =>
    ({ mt_stores := stores,
       mt_equity_package_sales :=
         alistSet key (equityRowOf r now now) db.mt_equity_package_sales },
     .inserted)
  | some old =>
    if r.quantity_sold > old.quantity_sold ∨ r.total_sales > old.total_sales then
      ({ mt_stores := stores,
         mt_equity_package_sales :=
           alistSet key (equityRowOf r old.created_at now) db.mt_equity_package_sales },
       .updated)
    else
      ({ mt_stores := stores,
         mt_equity_package_sales := db.mt_equity_package_sales },
       .skipped)

def save_equity_package_sales (now : Nat) (db : EquityDB)
    (records : List EquityRecord) : EquityDB × Stats :=
  runBatch (processEquityRecord now) db ⟨0, 0, 0⟩ records

/-- `save_equity_package_sales` under the fault oracle: the
`except sqlite3.Error` handler returns the stats accumulated so far. -/
def save_equity_package_sales_faulty (now : Nat) (err : Nat → Bool) (db : EquityDB)
    (records : List EquityRecord) : Stats :=
  runBatchFaulty (processEquityRecord now) err db ⟨0, 0, 0⟩ records

/-! ### `save_business_summary` (db_manager.py lines 437-592) -/

/-- The non-key attributes of a business-summary record; identical sets are
read from the input dictionary and written to the table row.  Numeric
fields are `ℚ` (Python ints/floats); the two rate fields and
`composition_data` are stored as strings. -/
structure BusinessFields where
  city : String
  store_created_at : String
  operating_days : ℚ
  revenue : ℚ
  discount_amount : ℚ
  business_income : ℚ
  order_count : ℚ
  diner_count : ℚ
  table_count : ℚ
  per_capita_before_discount : ℚ
  per_capita_after_discount : ℚ
  avg_order_before_discount : ℚ
  avg_order_after_discount : ℚ
  table_opening_rate : String
  table_turnover_rate : ℚ
  occupancy_rate : String
  avg_dining_time : ℚ
  composition_data : String
deriving DecidableEq, Repr

/-- One input record: key fields plus the non-key attribute block. -/
structure BusinessRecord where
  store_name : String
  business_date : String
  attrs : BusinessFields
deriving DecidableEq, Repr

/-- A row of `mt_business_summary` keyed by `(store_name, business_date)`. -/
structure BusinessRow where
  attrs : BusinessFields
  created_at : Nat
  updated_at : Nat
deriving DecidableEq, Repr

abbrev BusinessKey := String × String

/-- The per-record body of `save_business_summary`'s loop.  Records with a
falsy (empty) store name or business date are counted as skipped.  On an
existing key the row is rewritten when the incoming revenue or order count
is strictly higher, or `force_update` is set. -/
def processBusinessRecord (now : Nat) (force_update : Bool)
    (tbl : List (BusinessKey × BusinessRow)) (r : BusinessRecord) :
    List (BusinessKey × BusinessRow) × WriteOutcome :=
  if r.store_name = "" ∨ r.business_date = "" then (tbl, .skipped)
  else
    let key : BusinessKey := (r.store_name, r.business_date)
    match alistFind key tbl with
    | none => (alistSet key ⟨r.attrs, now, now⟩ tbl, .inserted)
    | some old =>
      if r.attrs.revenue > old.attrs.revenue ∨
          r.attrs.order_count > old.attrs.order_count ∨ force_update then
        (alistSet key ⟨r.attrs, old.created_at, now⟩ tbl, .updated)
      else (tbl, .skipped)

def save_business_summary (now : Nat) (records : List BusinessRecord)
    (force_update : Bool := false) (tbl : List (BusinessKey × BusinessRow)) :
    List (BusinessKey × BusinessRow) × Stats :=
  runBatch (processBusinessRecord now force_update) tbl ⟨0, 0, 0⟩ records

def save_business_summary_faulty (now : Nat) (err : Nat → Bool)
    (records : List BusinessRecord) (force_update : Bool)
    (tbl : List (BusinessKey × BusinessRow)) : Stats :=
  runBatchFaulty (processBusinessRecord now force_update) err tbl ⟨0, 0, 0⟩ records

/-! ### `save_dish_sales` (db_manager.py lines 594-760) -/

/-- One dish-sales input record: the merge logic touches only
`sales_quantity` / `sales_amount` (read with `record.get`, so optional);
the remaining ~26 `record.get(...)` metrics are carried opaquely in
`metrics`, copied whole on insert and update. -/
structure DishRecord where
  store_name : String
  business_date : String
  dish_name : String
  org_code : Option String
  sales_quantity : Option ℚ
  sales_amount : Option ℚ
  metrics : List (String × Option ℚ)
deriving DecidableEq, Repr

/-- A row of `mt_dish_sales` keyed by
`(store_name, business_date, dish_name)`. -/
structure DishRow where
  org_code : Option String
  sales_quantity : Option ℚ
  sales_amount : Option ℚ
  metrics : List (String × Option ℚ)
  created_at : Nat
  updated_at : Nat
deriving DecidableEq, Repr

abbrev DishKey := String × String × String

/-- The per-record body of `save_dish_sales`'s loop.  Note the update
branch writes `new_quantity`/`new_amount`, i.e. the `or 0`-coerced values,
while the insert branch stores the raw optional values. -/
def processDishRecord (now : Nat) (force_update : Bool)
    (tbl : List (DishKey × DishRow)) (r : DishRecord) :
    List (DishKey × DishRow) × WriteOutcome :=
  let key : DishKey := (r.store_name, r.business_date, r.dish_name)
  match alistFind key tbl with
  | none =>
    (alistSet key ⟨r.org_code, r.sales_quantity, r.sales_amount, r.metrics, now, now⟩ tbl,
     .inserted)
  | some old =>
    let old_quantity := old.sales_quantity.getD 0
    let old_amount := old.sales_amount.getD 0
    let new_quantity := r.sales_quantity.getD 0
    let new_amount := r.sales_amount.getD 0
    if new_quantity > old_quantity ∨ new_amount > old_amount ∨ force_update then
      (alistSet key
        ⟨r.org_code, some new_quantity, some new_amount, r.metrics, old.created_at, now⟩ tbl,
       .updated)
    else (tbl, .skipped)

def save_dish_sales (now : Nat) (records : List DishRecord) (force_update : Bool)
    (tbl : List (DishKey × DishRow)) : List (DishKey × DishRow) × Stats :=
  runBatch (processDishRecord now force_update) tbl ⟨0, 0, 0⟩ records

def save_dish_sales_faulty (now : Nat) (err : Nat → Bool) (records : List DishRecord)
    (force_update : Bool) (tbl : List (DishKey × DishRow)) : Stats :=
  runBatchFaulty (processDishRecord now force_update) err tbl ⟨0, 0, 0⟩ records

end DB

/-! ## Business-summary crawler decode layer
(`src/crawlers/guanjia/business_summary.py` and
`src/crawlers/base_crawler.py`) -/

namespace Guanjia

/-- Decimal digit characters of `n`, most significant first (fuel-driven so
that it reduces in the kernel; fuel `n + 1` always suffices). -/
def natDigits : Nat → Nat → List Char
  | 0, _ => []
  | fuel + 1, n =>
    if n < 10 then [Char.ofNat (48 + n)]
    else natDigits fuel (n / 10) ++ [Char.ofNat (48 + n % 10)]

/-- Decimal rendering of a natural number (Python f-string `{n}`). -/
def natToStr (n : Nat) : String := String.mk (natDigits (n + 1) n)

/-- `parse_number` of `base_crawler.py`: strip thousands separators and
currency symbols, then `float(...)`, defaulting to `0.0` on an empty string
or any parse failure. -/
def parse_number (value : String) : ℚ :=
  let cleaned := pyStripList (removeChars [',', '¥', '元'] value.toList)
  if cleaned = [] then 0
  else
    match pyFloat (String.mk cleaned) with
    | some q => q
    | none => 0

/-! ### `_flatten_headers` -/

/-- One header cell as collected from the DOM: text, 0-based row index (the
source reads `tr.rowIndex`, possibly absent), and span attributes. -/
structure HeaderCell where
  text : String
  rowIndex : Option Nat
  colspan : Nat
  rowspan : Nat
deriving DecidableEq, Repr

/-- The `rows` buckets: cells of header row `r`, in source order
(`rows[row_idx].append(h)`); row indices outside 0-3 are dropped by the
`row_idx in rows` guard. -/
def rowCells (headers : List HeaderCell) (r : Nat) : List HeaderCell :=
  headers.filter (fun h => h.rowIndex = some r)

/-- `total_cols = sum(int(h['colspan']) for h in rows[0])`. -/
def totalColumns (headers : List HeaderCell) : Nat :=
  ((rowCells headers 0).map (fun h => h.colspan)).sum

/-- The 4×N grid.  A cell is `some text` once written; in the source the
parallel `occupied` boolean grid is set exactly when `grid[r][c]` is
assigned, so occupancy is `Option.isSome` here. -/
abbrev Grid := List (List (Option String))

def emptyGrid (total : Nat) : Grid := List.replicate 4 (List.replicate total none)

def gridGet (g : Grid) (r c : Nat) : Option String := (g.getD r []).getD c none

def gridSet (g : Grid) (r c : Nat) (t : String) : Grid :=
  g.set r ((g.getD r []).set c (some t))

def occupied (g : Grid) (r c : Nat) : Bool := (gridGet g r c).isSome

/-- The two nested fill loops: write `text` at `(row+dr, col+dc)` for
`dr < rowspan`, `dc < colspan`, breaking at the grid edges (`row+dr ≥ 4`,
`col+dc ≥ total_cols`). -/
def fillCell (total row col : Nat) (text : String) (rowspan colspan : Nat)
    (g : Grid) : Grid :=
  (List.range rowspan).foldl
    (fun g dr =>
      if 4 ≤ row + dr then g
      else
        (List.range colspan).foldl
          (fun g dc =>
            if total ≤ col + dc then g else gridSet g (row + dr) (col + dc) text)
          g)
    g

/-- `while col_cursor < total_cols and occupied[row_idx][col_cursor]:
col_cursor += 1` — fuel-driven; fuel `total` suffices since the cursor
stops at `total`. -/
def skipOccupied (total : Nat) (g : Grid) (row : Nat) : Nat → Nat → Nat
  | 0, c => c
  | fuel + 1, c =>
    if c < total then
      if occupied g row c then skipOccupied total g row fuel (c + 1) else c
    else c

/-- The body of `for h in rows[row_idx]`, threading the column cursor and a
stop flag (the `break` once the cursor passes the last column). -/
def fillRowStep (total row : Nat) (st : Grid × Nat × Bool) (h : HeaderCell) :
    Grid × Nat × Bool :=
  match st with
  | (g, cursor, stopped) =>
    if stopped then (g, cursor, stopped)
    else
      let c := skipOccupied total g row total cursor
      if total ≤ c then (g, c, true)
      else (fillCell total row c h.text h.rowspan h.colspan g, c + h.colspan, false)

def fillRow (total row : Nat) (cells : List HeaderCell) (g : Grid) : Grid :=
  (cells.foldl (fillRowStep total row) (g, 0, false)).1

/-- `for row_idx in range(4):` fill the grid row by row. -/
def fillGrid (headers : List HeaderCell) : Grid :=
  let total := totalColumns headers
  (List.range 4).foldl
    (fun g r => fillRow total r (rowCells headers r) g)
    (emptyGrid total)

/-- One step of reading down a column: keep a cell if it is non-empty
(`if cell`) and differs from the last kept value
(`not parts or parts[-1] != cell`). -/
def columnStep (parts : List String) (oc : Option String) : List String :=
  match oc with
  | none => parts
  | some cell =>
    if cell ≠ "" ∧ (parts = [] ∨ parts.getLast? ≠ some cell) then parts ++ [cell]
    else parts

/-- Reading down one column over the 4 header rows. -/
def columnParts (g : Grid) (col : Nat) : List String :=
  (List.range 4).foldl (fun parts row => columnStep parts (gridGet g row col)) []

/-- `'-'.join(parts)`. -/
def joinDash : List String → String
  | [] => ""
  | s :: rest => rest.foldl (fun acc t => acc ++ "-" ++ t) s

/-- `'-'.join(parts) if parts else f"Col{col}"`. -/
def columnName (g : Grid) (col : Nat) : String :=
  match columnParts g col with
  | [] => "Col" ++ natToStr col
  | parts => joinDash parts

/-- `_flatten_headers`: group, size the grid from row 0, fill, then read
one name per column. -/
def flatten_headers (headers : List HeaderCell) : List String :=
  let total := totalColumns headers
  let g := fillGrid headers
  (List.range total).map (fun col => columnName g col)

/-! ### `_is_valid_date` and `_parse_row` -/

/-- `_is_valid_date`: normalize `/` to `-`, require exactly three pieces,
a 4-character year starting with `"20"`, then `1 ≤ int(month) ≤ 12` and
`1 ≤ int(day) ≤ 31`, any `int` failure giving `False`. -/
def is_valid_date (date_str : String) : Bool :=
  if date_str = "" then false
  else
    let normalized := replaceChar '/' '-' date_str.toList
    match splitOnChar '-' normalized with
    | [year, month, day] =>
      if year.length ≠ 4 ∨ ¬ (['2', '0'].isPrefixOf year) then false
      else
        match pyInt (String.mk month) with
        | none => false
        | some m =>
          if ¬ (1 ≤ m ∧ m ≤ 12) then false
          else
            match pyInt (String.mk day) with
            | none => false
            | some d => 1 ≤ d ∧ d ≤ 31
    | _ => false

/-- The typed-coercion tags of `FIXED_COLUMNS` (the `'datetime'` tag, like
`'text'`, has no dedicated branch and passes the raw string through). -/
inductive ColType
  | text
  | number
  | decimal
  | percentage
  | date
  | datetime
deriving DecidableEq, Repr

/-- The fixed `(col_index, field_name, data_type)` schema of the
business-summary report. -/
def FIXED_COLUMNS : List (Nat × String × ColType) :=
  [(1, "city", .text),
   (2, "store_name", .text),
   (3, "business_date", .date),
   (4, "store_created_at", .datetime),
   (5, "operating_days", .number),
   (6, "revenue", .decimal),
   (7, "discount_amount", .decimal),
   (8, "business_income", .decimal),
   (9, "order_count", .number),
   (10, "diner_count", .number),
   (11, "table_count", .number),
   (12, "per_capita_before_discount", .decimal),
   (13, "per_capita_after_discount", .decimal),
   (14, "avg_order_before_discount", .decimal),
   (15, "avg_order_after_discount", .decimal),
   (16, "table_opening_rate", .percentage),
   (17, "table_turnover_rate", .decimal),
   (18, "occupancy_rate", .percentage),
   (19, "avg_dining_time", .number)]

/-- A Python value stored in the record dictionary. -/
inductive PyVal
  | vInt (i : ℤ)
  | vNum (q : ℚ)
  | vStr (s : String)
deriving DecidableEq, Repr

/-- Coercion of one fixed column: `number` → `int(parse_number(v))`
(truncation toward zero), `decimal` → `parse_number(v)`, `percentage` →
raw, `date` → `v.replace('/', '-')`, anything else → raw. -/
def coerceCol (ty : ColType) (value : String) : PyVal :=
  match ty with
  | .number => .vInt (pyTrunc (parse_number value))
  | .decimal => .vNum (parse_number value)
  | .percentage => .vStr value
  | .date => .vStr (String.mk (replaceChar '/' '-' value.toList))
  | _ => .vStr value

/-- The `for col_idx, field_name, data_type in self.FIXED_COLUMNS` loop:
columns beyond the row's length are skipped (`continue`). -/
def parseRowFixed (row : List String) : List (String × PyVal) :=
  FIXED_COLUMNS.foldl
    (fun acc c =>
      if row.length ≤ c.1 then acc
      else acc ++ [(c.2.1, coerceCol c.2.2 (row.getD c.1 ""))])
    []

/-- `record.get(key, '')` for the two string-valued validation fields. -/
def getStr (fields : List (String × PyVal)) (k : String) : String :=
  match alistFind k fields with
  | some (.vStr s) => s
  | _ => ""

/-- The composition tail: columns `20 ≤ i < min(len(row), len(column_names))`
mapped to `parse_number` of the cell (the source's `except` fallback to the
raw string is unreachable because `parse_number` catches internally).  The
record stores this dictionary serialized with `json.dumps`; the model keeps
it structured. -/
def compositionColumns (row : List String) (column_names : List String) :
    List (String × ℚ) :=
  (List.range' 20 (min row.length column_names.length - 20)).map
    (fun i =>
      let col_name :=
        if i < column_names.length then column_names.getD i "" else "col_" ++ natToStr i
      let value := if i < row.length then row.getD i "" else ""
      (col_name, parse_number value))

/-- A parsed row: the fixed typed fields plus the composition payload. -/
structure ParsedRecord where
  fields : List (String × PyVal)
  composition_data : List (String × ℚ)
deriving DecidableEq, Repr

/-- `_parse_row`: reject short rows, rows with an invalid business date and
rows whose store name is empty or purely numeric; otherwise build the
record. -/
def parse_row (row : List String) (column_names : List String) : Option ParsedRecord :=
  if row.length < 20 then none
  else
    let fields := parseRowFixed row
    let business_date := getStr fields "business_date"
    if ¬ is_valid_date business_date then none
    else
      let store_name := getStr fields "store_name"
      if store_name = "" ∨ pyIsdigit store_name then none
      else some ⟨fields, compositionColumns row column_names⟩

end Guanjia

/-! ## Remote record store (`database/supabase_manager.py`) -/

namespace Supa

/-- The static `MEITUAN_STORE_NAME_MAP`: Meituan report name → Supabase
restaurant name. -/
def MEITUAN_STORE_NAME_MAP : List (String × String) :=
  [("宁桂杏山野烤肉（绵阳1958店）", "宁桂杏1958店"),
   ("宁桂杏山野烤肉（上马店）", "宁桂杏上马店"),
   ("宁桂杏山野烤肉（常熟世贸店）", "宁桂杏世贸店"),
   ("宁桂杏山野烤肉（江油首店）", "宁桂杏江油店"),
   ("野百灵·贵州酸汤火锅（1958店）", "野百灵1958店"),
   ("野百灵·贵州酸汤（绵阳上马店）", "野百灵上马店"),
   ("野百灵·贵州酸汤火锅（德阳店）", "野百灵同森店")]

/-- `get_restaurant_id_by_name`: alias-table translation first, then exact
cache hit, then first substring match in either direction over the cache in
its insertion order.  The source reads the module-level
`MEITUAN_STORE_NAME_MAP` and the instance's `_restaurant_name_cache`; both
are explicit arguments here. -/
def get_restaurant_id_by_name (name_map name_cache : List (String × String))
    (store_name : String) : Option String :=
  let step1 : Option String :=
    match alistFind store_name name_map with
    | some mapped => alistFind mapped name_cache
    | none => none
  match step1 with
  | some rid => some rid
  | none =>
    match alistFind store_name name_cache with
    | some rid => some rid
    | none =>
      match name_cache.find?
          (fun p => pyInStr p.1 store_name || pyInStr store_name p.1) with
      | some p => some p.2
      | none => none

/-- A row of the cloud `mt_equity_package_sales` table (`id` is the alist
key; `updated_at` is written only by updates, from `datetime.utcnow()`). -/
structure SupaEquityRow where
  restaurant_id : String
  date : String
  package_name : String
  unit_price : ℚ
  quantity_sold : ℤ
  total_sales : ℚ
  refund_quantity : ℤ
  refund_amount : ℚ
  updated_at : Option Nat
deriving DecidableEq, Repr

/-- Cloud table plus the generator of fresh row ids. -/
structure SupaState where
  rows : List (Nat × SupaEquityRow)
  next_id : Nat
deriving DecidableEq, Repr

/-- The Supabase stats dictionary: outcome counters plus the
`unknown_stores` list of `(org_code, store_name)` pairs. -/
structure SupaStats where
  inserted : Nat
  updated : Nat
  skipped : Nat
  failed : Nat
  unknown_stores : List (String × String)
deriving DecidableEq, Repr

/-- `_get_existing_record`: first row matching
`(restaurant_id, date, package_name)`. -/
def getExistingRecord (st : SupaState) (restaurant_id date package_name : String) :
    Option (Nat × SupaEquityRow) :=
  st.rows.find? (fun p =>
    p.2.restaurant_id == restaurant_id && p.2.date == date &&
      p.2.package_name == package_name)

/-- `_insert_record`: append a fresh row, refund fields defaulted. -/
def insertRecord (st : SupaState) (restaurant_id : String) (r : DB.EquityRecord) :
    SupaState :=
  { rows := st.rows ++
      [(st.next_id,
        ⟨restaurant_id, r.date, r.package_name, r.unit_price, r.quantity_sold,
         r.total_sales, r.refund_quantity.getD 0, r.refund_amount.getD 0, none⟩)],
    next_id := st.next_id + 1 }

/-- `_update_record`: overwrite the non-key data columns of row `id` and
stamp `updated_at`. -/
def updateRecord (now : Nat) (st : SupaState) (id : Nat) (r : DB.EquityRecord) :
    SupaState :=
  { st with
    rows := st.rows.map (fun p =>
      if p.1 = id then
        (p.1,
         { p.2 with
           unit_price := r.unit_price
           quantity_sold := r.quantity_sold
           total_sales := r.total_sales
           refund_quantity := r.refund_quantity.getD 0
           refund_amount := r.refund_amount.getD 0
           updated_at := some now })
      else p) }

/-- The per-record body of the Supabase `save_equity_package_sales` loop,
threading the table state, the stats and the `seen_unknown` set (kept as a
list in first-seen order).  `cache` is the org_code → restaurant-id
`_restaurant_cache`. -/
def processSupaEquity (now : Nat) (cache : List (String × String))
    (acc : SupaState × SupaStats × List String) (r : DB.EquityRecord) :
    SupaState × SupaStats × List String :=
  let (st, stats, seen) := acc
  match alistFind r.org_code cache with
  | none =>
    -- Unknown store: warn once per org_code, count skipped, keep the state.
    if r.org_code ∈ seen then
      (st, { stats with skipped := stats.skipped + 1 }, seen)
    else
      (st,
       { stats with
         skipped := stats.skipped + 1
         unknown_stores := stats.unknown_stores ++ [(r.org_code, r.store_name)] },
       seen ++ [r.org_code])
  | some restaurant_id =>
    match getExistingRecord st restaurant_id r.date r.package_name with
    | none =>
      (insertRecord st restaurant_id r,
       { stats with inserted := stats.inserted + 1 }, seen)
    | some (id, old) =>
      if r.quantity_sold > old.quantity_sold ∨ r.total_sales > old.total_sales then
        (updateRecord now st id r,
         { stats with updated := stats.updated + 1 }, seen)
      else
        (st, { stats with skipped := stats.skipped + 1 }, seen)

/-- The Supabase `save_equity_package_sales`: per-record error isolation;
the happy path of the per-record `try` is modelled (no injected faults, so
`failed` stays 0). -/
def save_equity_package_sales (now : Nat) (cache : List (String × String))
    (st : SupaState) (records : List DB.EquityRecord) : SupaState × SupaStats :=
  let res := records.foldl (processSupaEquity now cache) (st, ⟨0, 0, 0, 0, []⟩, [])
  (res.1, res.2.1)

end Supa

/-! ## Sync reconciler (`scripts/sync_databases.py`) -/

namespace Sync

/-- The joined `master_restaurant(meituan_org_code, restaurant_name)`
object of a cloud row (absent when the row has no restaurant). -/
structure MasterRef where
  meituan_org_code : Option String
  restaurant_name : Option String
deriving DecidableEq, Repr

/-- One record of the cloud table as fetched by the pull query. -/
structure CloudEquityRecord where
  date : String
  package_name : String
  unit_price : Option ℚ
  quantity_sold : Option ℤ
  total_sales : Option ℚ
  refund_quantity : Option ℤ
  refund_amount : Option ℚ
  master_restaurant : Option MasterRef
deriving DecidableEq, Repr

/-- `org_code = restaurant.get('meituan_org_code') if restaurant else None`
followed by the `if not org_code: continue` falsy test. -/
def cloudOrgCode (cr : CloudEquityRecord) : Option String :=
  match cr.master_restaurant with
  | none => none
  | some m =>
    match m.meituan_org_code with
    | none => none
    | some s => if s = "" then none else some s

/-- `store_name or org_code` (falsy name falls back to the code). -/
def cloudStoreName (cr : CloudEquityRecord) (org : String) : String :=
  match cr.master_restaurant with
  | none => org
  | some m =>
    match m.restaurant_name with
    | none => org
    | some s => if s = "" then org else s

/-- `record.get('unit_price', 99.0) or 99.0`: missing, `None`-like and zero
prices all fall back to 99. -/
def priceOr99 (v : Option ℚ) : ℚ :=
  match v with
  | none => 99
  | some q => if q = 0 then 99 else q

/-- The local-format record dictionary built for one missing cloud row. -/
def pullRecordOf (org : String) (cr : CloudEquityRecord) : DB.EquityRecord :=
  { org_code := org
    store_name := cloudStoreName cr org
    date := cr.date
    package_name := cr.package_name
    unit_price := priceOr99 cr.unit_price
    quantity_sold := cr.quantity_sold.getD 0
    total_sales := cr.total_sales.getD 0
    refund_quantity := some (cr.refund_quantity.getD 0)
    refund_amount := some (cr.refund_amount.getD 0) }

/-- `_get_local_equity_keys`: the `(org_code, date, package_name)` key set
of the local table. -/
def localEquityKeys (db : DB.EquityDB) : List DB.EquityKey :=
  db.mt_equity_package_sales.map Prod.fst

/-- `pull_equity_package_sales`: keep exactly the cloud records with a
resolvable org code whose key is missing locally, and hand them to the
local conditional-merge writer.  (When the list is empty the source skips
the `save` call; saving the empty batch leaves the state unchanged, so the
composition is the same.)  Returns the new local store and the transferred
records. -/
def pull_equity_package_sales (now : Nat) (cloud_records : List CloudEquityRecord)
    (db : DB.EquityDB) : DB.EquityDB × List DB.EquityRecord :=
  let local_keys := localEquityKeys db
  let records_to_add := cloud_records.filterMap (fun cr =>
    match cloudOrgCode cr with
    | none => none
    | some org =>
      if (org, cr.date, cr.package_name) ∈ local_keys then none
      else some (pullRecordOf org cr))
  ((DB.save_equity_package_sales now db records_to_add).1, records_to_add)

/-- `db.get_equity_sales()` without filters: every sales row joined with
its store's name (an inner join, so a row with no matching store is
dropped). -/
def get_equity_sales (db : DB.EquityDB) : List DB.EquityRecord :=
  db.mt_equity_package_sales.filterMap (fun p =>
    match alistFind p.1.1 db.mt_stores with
    | none => none
    | some st =>
      some
        { org_code := p.1.1
          store_name := st.store_name
          date := p.1.2.1
          package_name := p.1.2.2
          unit_price := p.2.unit_price
          quantity_sold := p.2.quantity_sold
          total_sales := p.2.total_sales
          refund_quantity := some p.2.refund_quantity
          refund_amount := some p.2.refund_amount })

/-- `push_equity_package_sales`: push exactly the local records whose key
is absent from the cloud key set, through the Supabase conditional-merge
writer.  `cloud_keys` is the result of `_get_cloud_equity_keys` (a network
fetch, passed in here); `cache` is the org_code → restaurant-id cache. -/
def push_equity_package_sales (now : Nat) (cloud_keys : List DB.EquityKey)
    (cache : List (String × String)) (db : DB.EquityDB) (supa : Supa.SupaState) :
    Supa.SupaState × List DB.EquityRecord :=
  let local_records := get_equity_sales db
  let records_to_push := local_records.filter
    (fun r => (r.org_code, r.date, r.package_name) ∉ cloud_keys)
  ((Supa.save_equity_package_sales now cache supa records_to_push).1, records_to_push)

end Sync

/-! ## Spec-side formulations and sample data

The definitions below are not translations of repository code: they exist
to state properties (the duplicate-collapse law of C9) and to provide
concrete scenarios for the claims. -/

/-- Drop every element equal to the element kept immediately before
(`prev` is the last kept value). -/
def collapseAdjAux (prev : String) : List String → List String
  | [] => []
  | b :: rest => if b = prev then collapseAdjAux prev rest else b :: collapseAdjAux b rest

/-- Collapse runs of adjacent equal values to a single occurrence:
`["A","A","A","B"] ↦ ["A","B"]`. -/
def collapseAdj : List String → List String
  | [] => []
  | a :: rest => a :: collapseAdjAux a rest

/-- The top-to-bottom cell path of one grid column (occupied cells only). -/
def columnPath (g : Guanjia.Grid) (col : Nat) : List String :=
  (List.range 4).filterMap (fun row => Guanjia.gridGet g row col)

/-- Shape of a decoded grid: 4 rows of `n` columns each. -/
def gridShape (g : Guanjia.Grid) (n : Nat) : Prop :=
  g.length = 4 ∧ ∀ row ∈ g, row.length = n

/-- C2 sample: header cells whose rowspan (9) and colspan (7) overflow the
4×2 grid on purpose. -/
def c2hs : List Guanjia.HeaderCell :=
  [⟨"A", some 0, 2, 9⟩, ⟨"B", some 1, 7, 9⟩]

/-- C9 sample: a row-0 cell with rowspan 3 expands to the column path
`["A","A","A","B"]`. -/
def c9hs : List Guanjia.HeaderCell :=
  [⟨"A", some 0, 1, 3⟩, ⟨"B", some 3, 1, 1⟩]

/-- C9 sample: a single column with no non-empty header text. -/
def c9empty : List Guanjia.HeaderCell := [⟨"", some 0, 1, 1⟩]

/-- C3 sample row: valid date and name, unparseable numeric cells. -/
def c3garbage : List String :=
  ["0", "成都", "门店A", "2025/05/10", "2024-01-01", "xx", "garbage¥", "foo",
   "bar", "baz", "q", "w", "e", "r", "t", "y", "10%", "zz", "20%", "uu"]

/-- C3 sample row rejected for its date field `"abc"`. -/
def c3badDate : List String :=
  ["0", "成都", "门店A", "abc", "2024-01-01", "1", "2", "3", "4", "5", "6",
   "7", "8", "9", "10", "11", "12%", "13", "14%", "15"]

/-- C3 sample row rejected for its purely numeric name field `"12345"`. -/
def c3badName : List String :=
  ["0", "成都", "12345", "2025-05-10", "2024-01-01", "1", "2", "3", "4", "5",
   "6", "7", "8", "9", "10", "11", "12%", "13", "14%", "15"]

/-- C3 refutation row: the date's year `"20ab"` is not a 4-digit number,
yet the code's check (length 4 + prefix "20") accepts it. -/
def c3year : List String :=
  ["0", "成都", "门店A", "20ab-05-10", "2024-01-01", "1", "2", "3", "4", "5",
   "6", "7", "8", "9", "10", "11", "12%", "13", "14%", "15"]

/-- C4 sample restaurant cache: org codes MDA and MDC resolve, MDB does
not. -/
def c4cache : List (String × String) := [("MDA", "rid-A"), ("MDC", "rid-C")]

/-- C4 sample batch: the middle record's store identity is unresolvable. -/
def c4r1 : DB.EquityRecord := ⟨"MDA", "StoreA", "2025-07-01", "Pkg", 99, 1, 99, some 0, some 0⟩

def c4r2 : DB.EquityRecord := ⟨"MDB", "StoreB", "2025-07-01", "Pkg", 99, 2, 198, some 0, some 0⟩

def c4r3 : DB.EquityRecord := ⟨"MDC", "StoreC", "2025-07-01", "Pkg", 99, 3, 297, some 0, some 0⟩

/-- C4 sample: empty cloud table. -/
def c4st : Supa.SupaState := ⟨[], 0⟩

/-- C5 sample alias table. -/
def c5map : List (String × String) := [("Old Name", "Canonical")]

/-- C5 sample name→id cache. -/
def c5cache : List (String × String) := [("Canonical", "id1"), ("Other Store", "id2")]

/-- C6 sample: the four natural keys A, B, C, D of the sync scenario. -/
def c6keyA : DB.EquityKey := ("MD1", "2025-08-01", "P")

def c6keyB : DB.EquityKey := ("MD1", "2025-08-02", "P")

def c6keyC : DB.EquityKey := ("MD1", "2025-08-03", "P")

def c6keyD : DB.EquityKey := ("MD1", "2025-08-04", "P")

/-- C6 sample local store holding keys A, B, C. -/
def c6db : DB.EquityDB :=
  ⟨[("MD1", ⟨"Store", 0, 0⟩)],
   [(c6keyA, ⟨99, 1, 99, 0, 0, 0, 0⟩), (c6keyB, ⟨99, 1, 99, 0, 0, 0, 0⟩),
    (c6keyC, ⟨99, 1, 99, 0, 0, 0, 0⟩)]⟩

/-- C6 sample cloud record constructor for one date. -/
def c6cloudRec (d : String) : Sync.CloudEquityRecord :=
  ⟨d, "P", some 99, some 1, some 99, some 0, some 0, some ⟨some "MD1", some "Store"⟩⟩

/-- C6 sample cloud rows: keys B, C, D. -/
def c6cloud : List Sync.CloudEquityRecord :=
  [c6cloudRec "2025-08-02", c6cloudRec "2025-08-03", c6cloudRec "2025-08-04"]

/-- Sample store table for the C1 scenario. -/
def c1stores : List (String × DB.StoreRow) := [("MD1", ⟨"Store", 0, 0⟩)]

/-- Sample stored row with quantity 5 and amount 100. -/
def c1old : DB.EquityRow := ⟨99, 5, 100, 0, 0, 0, 0⟩

/-- Sample local database holding `c1old` under key (MD1, 2025-05-10, Pkg). -/
def c1db : DB.EquityDB := ⟨c1stores, [(("MD1", "2025-05-10", "Pkg"), c1old)]⟩

/-- Incoming record with quantity 3 and amount 50 (both lower). -/
def c1low : DB.EquityRecord :=
  ⟨"MD1", "Store", "2025-05-10", "Pkg", 99, 3, 50, some 0, some 0⟩

/-- Incoming record with quantity 7 and amount 80 (only quantity higher). -/
def c1high : DB.EquityRecord :=
  ⟨"MD1", "Store", "2025-05-10", "Pkg", 99, 7, 80, some 1, some 2⟩

/-- C7 refutation scenario: stored (5, 100), store table for it. -/
def c7db : DB.EquityDB :=
  ⟨[("MD2", ⟨"Store2", 0, 0⟩)], [(("MD2", "2025-06-01", "Pkg"), ⟨99, 5, 100, 0, 0, 0, 0⟩)]⟩

/-- C7 refutation scenario: incoming (7, 80) — only quantity higher. -/
def c7r : DB.EquityRecord :=
  ⟨"MD2", "Store2", "2025-06-01", "Pkg", 99, 7, 80, some 0, some 0⟩

/-! ## Helper lemmas -/

theorem alistFind_alistSet_self {κ β : Type} [DecidableEq κ] (k : κ) (v : β)
    (l : List (κ × β)) : alistFind k (alistSet k v l) = some v := by
  induction l with
  | nil => simp [alistFind, alistSet]
  | cons hd tl ih =>
    by_cases h : hd.1 = k
    · simp [alistFind, alistSet, h]
    · simpa [alistFind, alistSet, h] using ih

theorem alistFind_alistSet_ne {κ β : Type} [DecidableEq κ] (k k' : κ) (v : β)
    (l : List (κ × β)) (h : k' ≠ k) :
    alistFind k (alistSet k' v l) = alistFind k l := by
  induction l with
  | nil => simp [alistFind, alistSet, h]
  | cons hd tl ih =>
    by_cases hh : hd.1 = k'
    · simp [alistFind, alistSet, hh, h]
    · simp [alistFind, alistSet, hh]
      split <;> simp_all [alistFind]

/-- A fault-interrupted batch returns exactly the stats of a clean run over
the prefix of records processed before the fault. -/
theorem runBatchFaulty_eq_prefix {σ ρ : Type} (step : σ → ρ → σ × DB.WriteOutcome)
    (err : Nat → Bool) (s : σ) (stats : DB.Stats) (l : List ρ) :
    DB.runBatchFaulty step err s stats l =
      (DB.runBatch step s stats (l.take (DB.firstFault err l.length))).2 := by
  induction l generalizing err s stats with
  | nil => rfl
  | cons r rest ih =>
    show (if err 0 then stats else _) =
      (DB.runBatch step s stats ((r :: rest).take
        (if err 0 then 0 else DB.firstFault (fun i => err (i + 1)) rest.length + 1))).2
    by_cases h : err 0 = true
    · simp [h, DB.runBatch]
    · simp only [h, if_false, Bool.false_eq_true, List.take_succ_cons]
      show DB.runBatchFaulty step (fun i => err (i + 1)) _ _ rest = _
      rw [ih]
      rfl

/-- A fold whose step preserves a predicate preserves it over a list. -/
theorem foldl_preserve {α β : Type} (P : α → Prop) (f : α → β → α)
    (l : List β) (a : α) (ha : P a) (hf : ∀ x b, P x → P (f x b)) :
    P (l.foldl f a) := by
  induction l generalizing a with
  | nil => exact ha
  | cons b rest ih => exact ih _ (hf _ _ ha)

/-- Writing one cell never changes the grid's dimensions. -/
theorem gridShape_gridSet (g : Guanjia.Grid) (r c : Nat) (t : String) (n : Nat)
    (h : gridShape g n) : gridShape (Guanjia.gridSet g r c t) n := by
  obtain ⟨h4, hrow⟩ := h
  by_cases hr : r < g.length
  · refine ⟨by simpa [Guanjia.gridSet] using h4, ?_⟩
    intro row hmem
    rcases List.mem_or_eq_of_mem_set hmem with hm | hm
    · exact hrow _ hm
    · subst hm
      rw [List.length_set]
      have hget : g.getD r [] = g[r] := by
        simp [List.getD_eq_getElem?_getD, List.getElem?_eq_getElem hr]
      rw [hget]
      exact hrow _ (List.getElem_mem hr)
  · have heq : Guanjia.gridSet g r c t = g :=
      List.set_eq_of_length_le (Nat.le_of_not_lt hr)
    rw [heq]
    exact ⟨h4, hrow⟩

/-- Filling one header cell never changes the grid's dimensions. -/
theorem gridShape_fillCell (total row col : Nat) (text : String)
    (rowspan colspan : Nat) (g : Guanjia.Grid) (n : Nat) (h : gridShape g n) :
    gridShape (Guanjia.fillCell total row col text rowspan colspan g) n := by
  unfold Guanjia.fillCell
  refine foldl_preserve (fun g' => gridShape g' n) _ _ _ h ?_
  intro g' dr hg'
  split
  · exact hg'
  · refine foldl_preserve (fun g'' => gridShape g'' n) _ _ _ hg' ?_
    intro g'' dc hg''
    split
    · exact hg''
    · exact gridShape_gridSet _ _ _ _ _ hg''

/-- Filling one header row never changes the grid's dimensions. -/
theorem gridShape_fillRow (total row : Nat) (cells : List Guanjia.HeaderCell)
    (g : Guanjia.Grid) (n : Nat) (h : gridShape g n) :
    gridShape (Guanjia.fillRow total row cells g) n := by
  have : ∀ st : Guanjia.Grid × Nat × Bool, gridShape st.1 n →
      gridShape ((cells.foldl (Guanjia.fillRowStep total row) st).1) n := by
    intro st hst
    have := foldl_preserve (fun st : Guanjia.Grid × Nat × Bool => gridShape st.1 n)
      (Guanjia.fillRowStep total row) cells st hst ?_
    · exact this
    · intro x b hx
      obtain ⟨gx, cx, sx⟩ := x
      simp only [Guanjia.fillRowStep]
      split
      · exact hx
      · split
        · exact hx
        · exact gridShape_fillCell _ _ _ _ _ _ _ _ hx
  exact this (g, 0, false) h

/-- The filled grid always has 4 rows of `totalColumns` cells each. -/
theorem gridShape_fillGrid (hs : List Guanjia.HeaderCell) :
    gridShape (Guanjia.fillGrid hs) (Guanjia.totalColumns hs) := by
  unfold Guanjia.fillGrid
  refine foldl_preserve (fun g => gridShape g (Guanjia.totalColumns hs)) _ _ _ ?_ ?_
  · constructor
    · simp [Guanjia.emptyGrid]
    · intro row hrow
      rw [List.eq_of_mem_replicate hrow]
      simp
  · intro g r hg
    exact gridShape_fillRow _ _ _ _ _ hg

/-- Folding `columnStep` from a non-empty accumulator appends the
duplicate-collapsed list of non-empty cells, collapsing against the
accumulator's last element. -/
theorem columnStep_fold_append (cells : List (Option String)) :
    ∀ (parts : List String) (last : String), parts.getLast? = some last →
    cells.foldl Guanjia.columnStep parts =
      parts ++ collapseAdjAux last ((cells.filterMap id).filter (fun s => s ≠ "")) := by
  induction cells with
  | nil => intro parts last _; simp [collapseAdjAux]
  | cons oc rest ih =>
    intro parts last h
    match oc with
    | none =>
      simpa [Guanjia.columnStep] using ih parts last h
    | some c =>
      by_cases hc : c = ""
      · subst hc
        simpa [Guanjia.columnStep] using ih parts last h
      · have hne : parts ≠ [] := by
          intro hnil; rw [hnil] at h; simp at h
        by_cases hl : c = last
        · subst hl
          have hstep : Guanjia.columnStep parts (some c) = parts := by
            simp [Guanjia.columnStep, hc, hne, h]
          calc (some c :: rest).foldl Guanjia.columnStep parts
              = rest.foldl Guanjia.columnStep parts := by
                simp [List.foldl_cons, hstep]
            _ = parts ++ collapseAdjAux c ((rest.filterMap id).filter (fun s => s ≠ "")) :=
                ih parts c h
            _ = parts ++ collapseAdjAux c
                  (((some c :: rest).filterMap id).filter (fun s => s ≠ "")) := by
                simp [collapseAdjAux, hc]
        · have hcond : c ≠ "" ∧ (parts = [] ∨ parts.getLast? ≠ some c) := by
            refine ⟨hc, Or.inr ?_⟩
            rw [h]
            intro hsome
            exact hl (Option.some_injective _ hsome).symm
          have hstep : Guanjia.columnStep parts (some c) = parts ++ [c] := by
            simp [Guanjia.columnStep, hcond]
          have hlast : (parts ++ [c]).getLast? = some c := by
            simp
          calc (some c :: rest).foldl Guanjia.columnStep parts
              = rest.foldl Guanjia.columnStep (parts ++ [c]) := by
                simp [List.foldl_cons, hstep]
            _ = parts ++ [c] ++
                  collapseAdjAux c ((rest.filterMap id).filter (fun s => s ≠ "")) :=
                ih _ _ hlast
            _ = parts ++ collapseAdjAux last
                  (((some c :: rest).filterMap id).filter (fun s => s ≠ "")) := by
                simp [collapseAdjAux, hc, fun h' => hl h', List.append_assoc]

/-- Folding `columnStep` from the empty accumulator produces exactly the
non-empty cells with adjacent duplicates collapsed. -/
theorem columnStep_fold_nil (cells : List (Option String)) :
    cells.foldl Guanjia.columnStep [] =
      collapseAdj ((cells.filterMap id).filter (fun s => s ≠ "")) := by
  induction cells with
  | nil => rfl
  | cons oc rest ih =>
    match oc with
    | none => simpa [Guanjia.columnStep] using ih
    | some c =>
      by_cases hc : c = ""
      · subst hc
        simpa [Guanjia.columnStep] using ih
      · have hstep : Guanjia.columnStep [] (some c) = [c] := by
          simp [Guanjia.columnStep, hc]
        calc (some c :: rest).foldl Guanjia.columnStep []
            = rest.foldl Guanjia.columnStep [c] := by simp [List.foldl_cons, hstep]
          _ = [c] ++ collapseAdjAux c ((rest.filterMap id).filter (fun s => s ≠ "")) :=
              columnStep_fold_append rest [c] c rfl
          _ = collapseAdj (((some c :: rest).filterMap id).filter (fun s => s ≠ "")) := by
              simp [collapseAdj, hc]

/-- `columnParts` is the collapse-filter law applied to the column path. -/
theorem columnParts_eq_collapse (g : Guanjia.Grid) (col : Nat) :
    Guanjia.columnParts g col =
      collapseAdj ((columnPath g col).filter (fun s => s ≠ "")) := by
  have h1 : Guanjia.columnParts g col =
      ((List.range 4).map (fun row => Guanjia.gridGet g row col)).foldl
        Guanjia.columnStep [] := by
    rw [Guanjia.columnParts, List.foldl_map]
  have h2 : ((List.range 4).map (fun row => Guanjia.gridGet g row col)).filterMap id =
      columnPath g col := by
    rw [columnPath, List.filterMap_map]
    rfl
  rw [h1, columnStep_fold_nil, h2]

/-- The `col`-th flattened name is the name of grid column `col`. -/
theorem flatten_headers_getD (hs : List Guanjia.HeaderCell) (col : Nat)
    (hcol : col < Guanjia.totalColumns hs) :
    (Guanjia.flatten_headers hs).getD col "" =
      Guanjia.columnName (Guanjia.fillGrid hs) col := by
  simp only [Guanjia.flatten_headers]
  rw [List.getD_eq_getElem?_getD, List.getElem?_map, List.getElem?_range hcol]
  rfl

/-! ## Claim C2 — the flattener returns exactly N names and truncates
overflowing spans at the grid edge -/

/-- C2: whenever the row-0 colspans sum to `N`, `_flatten_headers` returns
exactly `N` column names — the `col`-th output being the name of grid
column `col` — and the occupancy grid it fills stays a 4×N grid no matter
how far the cells' rowspans/colspans overreach (writes are clipped at the
grid edge, so no index is ever out of bounds). -/
theorem C2_flatten_headers_shape (hs : List Guanjia.HeaderCell) (N : Nat)
    (h : Guanjia.totalColumns hs = N) :
    (Guanjia.flatten_headers hs).length = N ∧
    gridShape (Guanjia.fillGrid hs) N ∧
    (∀ col : Nat, col < N →
      (Guanjia.flatten_headers hs).getD col "" =
        Guanjia.columnName (Guanjia.fillGrid hs) col) := by
  subst h
  exact ⟨by simp [Guanjia.flatten_headers], gridShape_fillGrid hs,
    fun col hcol => flatten_headers_getD hs col hcol⟩

/-- Closed instance of C2 on header cells whose spans (rowspan 9,
colspan 7) overflow the 4×2 grid: still exactly 2 names and a 4-row grid. -/
theorem C2_flatten_headers_shape_witness :
    (Guanjia.flatten_headers c2hs).length = 2 ∧
    (Guanjia.fillGrid c2hs).length = 4 :=
  ⟨(C2_flatten_headers_shape c2hs 2 (by decide)).1,
   (C2_flatten_headers_shape c2hs 2 (by decide)).2.1.1⟩

/-! ## Claim C9 — column names collapse adjacent duplicates and default to
positional placeholders -/

/-- C9: each flattened column name is built by reading the column top to
bottom, keeping non-empty values, dropping values equal to the immediately
preceding kept value, and joining with `-`; the rowspan-expanded path
`["A","A","A","B"]` gives `"A-B"`, and an all-empty column `col` gives
`"Col<col>"`. -/
theorem C9_duplicate_collapse :
    (∀ (g : Guanjia.Grid) (col : Nat),
      Guanjia.columnParts g col =
        collapseAdj ((columnPath g col).filter (fun s => s ≠ ""))) ∧
    (∀ (hs : List Guanjia.HeaderCell) (col : Nat), col < Guanjia.totalColumns hs →
      (Guanjia.flatten_headers hs).getD col "" =
        (match collapseAdj ((columnPath (Guanjia.fillGrid hs) col).filter
            (fun s => s ≠ "")) with
         | [] => "Col" ++ Guanjia.natToStr col
         | parts => Guanjia.joinDash parts)) ∧
    columnPath (Guanjia.fillGrid c9hs) 0 = ["A", "A", "A", "B"] ∧
    Guanjia.flatten_headers c9hs = ["A-B"] ∧
    Guanjia.flatten_headers c9empty = ["Col0"] := by
  refine ⟨columnParts_eq_collapse, ?_, by decide, by decide, by decide⟩
  intro hs col hcol
  rw [flatten_headers_getD hs col hcol, Guanjia.columnName, columnParts_eq_collapse]

/-- Closed instance of C9: column 0 of the sample grid flattens to "A-B"
through the collapse law. -/
theorem C9_duplicate_collapse_witness :
    (Guanjia.flatten_headers c9hs).getD 0 "" = "A-B" := by
  rw [C9_duplicate_collapse.2.1 c9hs 0 (by decide)]
  decide

/-! ## Claim C1 — local conditional merge of equity package sales -/

/-- C1: when the natural key `(org_code, date, package_name)` already holds a
row, `save_equity_package_sales` fully overwrites the row (all non-key
fields including unit_price, refund_quantity, refund_amount, with
`updated_at` bumped to now) and reports `updated` exactly when the incoming
`quantity_sold` or `total_sales` is strictly greater than the stored one;
otherwise the row is untouched and the record counts as `skipped`.  In
particular, against a stored (5, 100) row, an incoming (3, 50) record is
skipped with the row unchanged, and an incoming (7, 80) record overwrites
both fields. -/
theorem C1_equity_conditional_merge (now : Nat) (db : DB.EquityDB)
    (r : DB.EquityRecord) (old : DB.EquityRow)
    (hold : alistFind (r.org_code, r.date, r.package_name)
      db.mt_equity_package_sales = some old) :
    (r.quantity_sold > old.quantity_sold ∨ r.total_sales > old.total_sales →
      DB.processEquityRecord now db r =
        ({ mt_stores := DB.upsertStore now db.mt_stores r.org_code r.store_name,
           mt_equity_package_sales :=
             alistSet (r.org_code, r.date, r.package_name)
               (DB.equityRowOf r old.created_at now) db.mt_equity_package_sales },
         .updated)) ∧
    (¬ (r.quantity_sold > old.quantity_sold ∨ r.total_sales > old.total_sales) →
      DB.processEquityRecord now db r =
        ({ mt_stores := DB.upsertStore now db.mt_stores r.org_code r.store_name,
           mt_equity_package_sales := db.mt_equity_package_sales },
         .skipped)) ∧
    DB.processEquityRecord 1 c1db c1low =
      (⟨[("MD1", ⟨"Store", 0, 1⟩)], [(("MD1", "2025-05-10", "Pkg"), c1old)]⟩, .skipped) ∧
    DB.processEquityRecord 1 c1db c1high =
      (⟨[("MD1", ⟨"Store", 0, 1⟩)],
        [(("MD1", "2025-05-10", "Pkg"), ⟨99, 7, 80, 1, 2, 0, 1⟩)]⟩, .updated) := by
  refine ⟨?_, ?_, by decide, by decide⟩
  · intro h
    simp only [DB.processEquityRecord, hold, if_pos h]
  · intro h
    simp only [DB.processEquityRecord, hold, if_neg h]

/-- Closed instance of C1: the hypothesis holds for the sample database and
the two sample outcomes follow from the theorem. -/
theorem C1_equity_conditional_merge_witness :
    DB.processEquityRecord 1 c1db c1low =
      (⟨[("MD1", ⟨"Store", 0, 1⟩)], [(("MD1", "2025-05-10", "Pkg"), c1old)]⟩, .skipped) :=
  (C1_equity_conditional_merge 1 c1db c1low c1old (by decide)).2.2.1

/-! ## Claim C8 — same batch twice: inserted, then skipped on the tie -/

/-- C8: writing `[r]` against a store where `r`'s key is absent reports
`inserted = 1`; immediately writing the identical batch again reports
`skipped = 1` (a tie is not strictly greater, so never `updated`), and the
sales table after the second call is exactly the table after the first. -/
theorem C8_rewrite_same_record_skips (now now2 : Nat) (db : DB.EquityDB)
    (r : DB.EquityRecord)
    (habs : alistFind (r.org_code, r.date, r.package_name)
      db.mt_equity_package_sales = none) :
    (DB.save_equity_package_sales now db [r]).2 = ⟨1, 0, 0⟩ ∧
    (DB.save_equity_package_sales now2
      (DB.save_equity_package_sales now db [r]).1 [r]).2 = ⟨0, 0, 1⟩ ∧
    ((DB.save_equity_package_sales now2
      (DB.save_equity_package_sales now db [r]).1 [r]).1).mt_equity_package_sales =
      ((DB.save_equity_package_sales now db [r]).1).mt_equity_package_sales := by
  have step1 : DB.processEquityRecord now db r =
      ({ mt_stores := DB.upsertStore now db.mt_stores r.org_code r.store_name,
         mt_equity_package_sales :=
           alistSet (r.org_code, r.date, r.package_name)
             (DB.equityRowOf r now now) db.mt_equity_package_sales },
       .inserted) := by
    simp only [DB.processEquityRecord, habs]
  have save1 : DB.save_equity_package_sales now db [r] =
      ({ mt_stores := DB.upsertStore now db.mt_stores r.org_code r.store_name,
         mt_equity_package_sales :=
           alistSet (r.org_code, r.date, r.package_name)
             (DB.equityRowOf r now now) db.mt_equity_package_sales },
       ⟨1, 0, 0⟩) := by
    simp only [DB.save_equity_package_sales, DB.runBatch, step1, DB.Stats.bump]
  have hfind : alistFind (r.org_code, r.date, r.package_name)
      (alistSet (r.org_code, r.date, r.package_name)
        (DB.equityRowOf r now now) db.mt_equity_package_sales) =
      some (DB.equityRowOf r now now) :=
    alistFind_alistSet_self _ _ _
  have hnot : ¬ (r.quantity_sold > (DB.equityRowOf r now now).quantity_sold ∨
      r.total_sales > (DB.equityRowOf r now now).total_sales) := by
    simp [DB.equityRowOf]
  have step2 : ∀ db1 : DB.EquityDB,
      db1.mt_equity_package_sales =
        alistSet (r.org_code, r.date, r.package_name)
          (DB.equityRowOf r now now) db.mt_equity_package_sales →
      DB.processEquityRecord now2 db1 r =
        ({ mt_stores := DB.upsertStore now2 db1.mt_stores r.org_code r.store_name,
           mt_equity_package_sales := db1.mt_equity_package_sales },
         .skipped) := by
    intro db1 h1
    simp only [DB.processEquityRecord, h1, hfind, if_neg hnot]
  have step2' := step2
    { mt_stores := DB.upsertStore now db.mt_stores r.org_code r.store_name,
      mt_equity_package_sales :=
        alistSet (r.org_code, r.date, r.package_name)
          (DB.equityRowOf r now now) db.mt_equity_package_sales } rfl
  refine ⟨by rw [save1], ?_, ?_⟩
  · rw [save1]
    simp only [DB.save_equity_package_sales, DB.runBatch, step2', DB.Stats.bump]
  · rw [save1]
    simp only [DB.save_equity_package_sales, DB.runBatch, step2', DB.Stats.bump]

/-- Closed instance of C8 at a one-record store and a concrete record. -/
theorem C8_rewrite_same_record_skips_witness :
    (DB.save_equity_package_sales 1 ⟨[], []⟩ [c1high]).2 = ⟨1, 0, 0⟩ ∧
    (DB.save_equity_package_sales 2
      (DB.save_equity_package_sales 1 ⟨[], []⟩ [c1high]).1 [c1high]).2 = ⟨0, 0, 1⟩ ∧
    ((DB.save_equity_package_sales 2
      (DB.save_equity_package_sales 1 ⟨[], []⟩ [c1high]).1 [c1high]).1).mt_equity_package_sales =
      ((DB.save_equity_package_sales 1 ⟨[], []⟩ [c1high]).1).mt_equity_package_sales :=
  C8_rewrite_same_record_skips 1 2 ⟨[], []⟩ c1high (by decide)

/-! ## Claim C7 — the overwrite trigger is "either field higher", not
"each field higher" -/

/-- C7 as stated is false: with stored (quantity 5, amount 100) and incoming
(quantity 7, amount 80) the designated fields are NOT each strictly
greater, yet the code overwrites and reports `updated`. -/
theorem C7_counterexample :
    (DB.processEquityRecord 1 c7db c7r).2 = DB.WriteOutcome.updated ∧
    ¬ (c7r.quantity_sold > (5 : ℤ) ∧ c7r.total_sales > (100 : ℚ)) := by decide

/-- C7 amended: the stored row is overwritten (with `updated` counted)
exactly when AT LEAST ONE designated primacy field is strictly greater
than the stored value — quantity or amount for equity package sales and
dish sales, revenue or order count for the business summary — or, for the
two saves that take it, the force-overwrite flag is set; otherwise the row
is untouched and `skipped` is counted. -/
theorem C7_overwrite_on_either_field_higher (now : Nat) :
    (∀ (db : DB.EquityDB) (r : DB.EquityRecord) (old : DB.EquityRow),
      alistFind (r.org_code, r.date, r.package_name)
          db.mt_equity_package_sales = some old →
      ((DB.processEquityRecord now db r).2 = .updated ↔
        (r.quantity_sold > old.quantity_sold ∨ r.total_sales > old.total_sales)) ∧
      (¬ (r.quantity_sold > old.quantity_sold ∨ r.total_sales > old.total_sales) →
        ((DB.processEquityRecord now db r).1.mt_equity_package_sales =
          db.mt_equity_package_sales ∧
        (DB.processEquityRecord now db r).2 = .skipped))) ∧
    (∀ (force : Bool) (tbl : List (DB.BusinessKey × DB.BusinessRow))
        (r : DB.BusinessRecord) (old : DB.BusinessRow),
      r.store_name ≠ "" → r.business_date ≠ "" →
      alistFind (r.store_name, r.business_date) tbl = some old →
      ((DB.processBusinessRecord now force tbl r).2 = .updated ↔
        (r.attrs.revenue > old.attrs.revenue ∨
          r.attrs.order_count > old.attrs.order_count ∨ force = true)) ∧
      (¬ (r.attrs.revenue > old.attrs.revenue ∨
          r.attrs.order_count > old.attrs.order_count ∨ force = true) →
        DB.processBusinessRecord now force tbl r = (tbl, .skipped))) ∧
    (∀ (force : Bool) (tbl : List (DB.DishKey × DB.DishRow))
        (r : DB.DishRecord) (old : DB.DishRow),
      alistFind (r.store_name, r.business_date, r.dish_name) tbl = some old →
      ((DB.processDishRecord now force tbl r).2 = .updated ↔
        (r.sales_quantity.getD 0 > old.sales_quantity.getD 0 ∨
          r.sales_amount.getD 0 > old.sales_amount.getD 0 ∨ force = true)) ∧
      (¬ (r.sales_quantity.getD 0 > old.sales_quantity.getD 0 ∨
          r.sales_amount.getD 0 > old.sales_amount.getD 0 ∨ force = true) →
        DB.processDishRecord now force tbl r = (tbl, .skipped))) := by
  refine ⟨?_, ?_, ?_⟩
  · intro db r old hold
    constructor
    · by_cases h : r.quantity_sold > old.quantity_sold ∨ r.total_sales > old.total_sales
      · simp only [DB.processEquityRecord, hold, if_pos h]
        simpa using h
      · simp only [DB.processEquityRecord, hold, if_neg h]
        simpa using h
    · intro h
      simp [DB.processEquityRecord, hold, if_neg h]
  · intro force tbl r old hname hdate hold
    have hcond : ¬ (r.store_name = "" ∨ r.business_date = "") := by
      simp [hname, hdate]
    constructor
    · by_cases h : r.attrs.revenue > old.attrs.revenue ∨
          r.attrs.order_count > old.attrs.order_count ∨ force = true
      · simp only [DB.processBusinessRecord, if_neg hcond, hold, if_pos h]
        simpa using h
      · simp only [DB.processBusinessRecord, if_neg hcond, hold, if_neg h]
        simpa using h
    · intro h
      simp only [DB.processBusinessRecord, if_neg hcond, hold, if_neg h]
  · intro force tbl r old hold
    constructor
    · by_cases h : r.sales_quantity.getD 0 > old.sales_quantity.getD 0 ∨
          r.sales_amount.getD 0 > old.sales_amount.getD 0 ∨ force = true
      · simp only [DB.processDishRecord, hold, if_pos h]
        simpa using h
      · simp only [DB.processDishRecord, hold, if_neg h]
        simpa using h
    · intro h
      simp only [DB.processDishRecord, hold, if_neg h]

/-- Closed instance of the amended C7: the equity update of the (7, 80)
record against the stored (5, 100) row is `updated` because one designated
field is higher. -/
theorem C7_overwrite_on_either_field_higher_witness :
    (DB.processEquityRecord 1 c7db c7r).2 = DB.WriteOutcome.updated :=
  (((C7_overwrite_on_either_field_higher 1).1 c7db c7r ⟨99, 5, 100, 0, 0, 0, 0⟩
    (by decide)).1).mpr (by decide)

/-! ## Claim C3 — row validation and forgiving numeric coercion -/

/-- For a row of at least 20 cells, the fixed-column pass stores the
slash-normalized cell 3 under `business_date` and the raw cell 2 under
`store_name`. -/
theorem parseRowFixed_fields (row : List String) (h : 20 ≤ row.length) :
    Guanjia.getStr (Guanjia.parseRowFixed row) "business_date" =
      String.mk (replaceChar '/' '-' (row.getD 3 "").toList) ∧
    Guanjia.getStr (Guanjia.parseRowFixed row) "store_name" = row.getD 2 "" := by
  have h1 : ¬ (row.length ≤ 1) := by omega
  have h2 : ¬ (row.length ≤ 2) := by omega
  have h3 : ¬ (row.length ≤ 3) := by omega
  have h4 : ¬ (row.length ≤ 4) := by omega
  have h5 : ¬ (row.length ≤ 5) := by omega
  have h6 : ¬ (row.length ≤ 6) := by omega
  have h7 : ¬ (row.length ≤ 7) := by omega
  have h8 : ¬ (row.length ≤ 8) := by omega
  have h9 : ¬ (row.length ≤ 9) := by omega
  have h10 : ¬ (row.length ≤ 10) := by omega
  have h11 : ¬ (row.length ≤ 11) := by omega
  have h12 : ¬ (row.length ≤ 12) := by omega
  have h13 : ¬ (row.length ≤ 13) := by omega
  have h14 : ¬ (row.length ≤ 14) := by omega
  have h15 : ¬ (row.length ≤ 15) := by omega
  have h16 : ¬ (row.length ≤ 16) := by omega
  have h17 : ¬ (row.length ≤ 17) := by omega
  have h18 : ¬ (row.length ≤ 18) := by omega
  have h19 : ¬ (row.length ≤ 19) := by omega
  constructor <;>
    simp +decide [Guanjia.parseRowFixed, Guanjia.FIXED_COLUMNS, Guanjia.getStr,
      Guanjia.coerceCol, alistFind, h1, h2, h3, h4, h5, h6, h7, h8, h9, h10,
      h11, h12, h13, h14, h15, h16, h17, h18, h19]

/-- C3 as stated is false at the date `"20ab-05-10"`: its year is not a
4-digit number, so the claim's calendar-date check fails and the row should
be dropped, but the code's check only tests length 4 and the prefix "20",
so the row is parsed into a record. -/
theorem C3_counterexample :
    (Guanjia.parse_row c3year []).isSome = true ∧
    Guanjia.is_valid_date "20ab-05-10" = true ∧
    ¬ ("20ab".toList.all Char.isDigit = true) := by decide

/-- C3 amended: for any row with ≥ 20 cells, `_parse_row` returns `None`
exactly when the date cell fails the code's date check (three `-`-separated
pieces after slash normalization, a 4-CHARACTER year starting with "20" —
digits are not verified — integer month 1-12 and integer day 1-31) or the
name cell is empty or purely numeric; otherwise it returns a record, with
every unparseable numeric cell coerced to the 0.0 default (e.g. the
`revenue` of the garbage sample row is 0). -/
theorem C3_row_rejection (row : List String) (cols : List String)
    (h : 20 ≤ row.length) :
    (Guanjia.parse_row row cols = none ↔
      (¬ Guanjia.is_valid_date
          (String.mk (replaceChar '/' '-' (row.getD 3 "").toList)) ∨
        row.getD 2 "" = "" ∨ pyIsdigit (row.getD 2 "") = true)) ∧
    Guanjia.parse_row c3badDate [] = none ∧
    Guanjia.parse_row c3badName [] = none ∧
    (Guanjia.parse_row c3garbage []).isSome = true ∧
    (Guanjia.parse_row c3garbage []).map
      (fun rec => alistFind "revenue" rec.fields) =
      some (some (.vNum 0)) ∧
    (Guanjia.parse_row c3garbage []).map
      (fun rec => alistFind "operating_days" rec.fields) =
      some (some (.vInt 0)) := by
  refine ⟨?_, by decide, by decide, by decide, by decide, by decide⟩
  have hlen : ¬ (row.length < 20) := by omega
  have hf := parseRowFixed_fields row h
  simp only [Guanjia.parse_row, if_neg hlen, hf.1, hf.2]
  by_cases hd : Guanjia.is_valid_date
      (String.mk (replaceChar '/' '-' (row.getD 3 "").toList)) = true
  · rw [if_neg (fun hcon => hcon hd)]
    by_cases hn : (row.getD 2 "" = "" ∨ pyIsdigit (row.getD 2 "") = true)
    · rw [if_pos hn]
      exact iff_of_true rfl (Or.inr hn)
    · rw [if_neg hn]
      exact iff_of_false (by simp) (fun hcase => hcase.elim (fun hc => hc hd) hn)
  · rw [if_pos hd]
    exact iff_of_true rfl (Or.inl hd)

/-- Closed instance of the amended C3 at the garbage-numerics sample row:
it parses to a record (both checks pass). -/
theorem C3_row_rejection_witness :
    ¬ (Guanjia.parse_row c3garbage [] = none) := by
  rw [(C3_row_rejection c3garbage [] (by decide)).1]
  decide

/-! ## Claim C4 — remote save isolates unknown stores per record -/

/-- C4: a record whose org_code is not in the restaurant cache leaves the
cloud table untouched, adds one to `skipped` (and nothing to `inserted` or
`updated`), and is appended to `unknown_stores` when its org_code has not
been seen yet; the rest of the batch is processed normally — in the sample
batch of three records whose 2nd store is unresolvable, records 1 and 3 are
inserted and the stats report exactly one unknown store. -/
theorem C4_unknown_store_isolation :
    (∀ (now : Nat) (cache : List (String × String)) (st : Supa.SupaState)
        (stats : Supa.SupaStats) (seen : List String) (r : DB.EquityRecord),
      alistFind r.org_code cache = none →
      (Supa.processSupaEquity now cache (st, stats, seen) r).1 = st ∧
      (Supa.processSupaEquity now cache (st, stats, seen) r).2.1.skipped =
        stats.skipped + 1 ∧
      (Supa.processSupaEquity now cache (st, stats, seen) r).2.1.inserted =
        stats.inserted ∧
      (Supa.processSupaEquity now cache (st, stats, seen) r).2.1.updated =
        stats.updated ∧
      (r.org_code ∉ seen →
        (Supa.processSupaEquity now cache (st, stats, seen) r).2.1.unknown_stores =
          stats.unknown_stores ++ [(r.org_code, r.store_name)])) ∧
    Supa.save_equity_package_sales 1 c4cache c4st [c4r1, c4r2, c4r3] =
      (⟨[(0, ⟨"rid-A", "2025-07-01", "Pkg", 99, 1, 99, 0, 0, none⟩),
         (1, ⟨"rid-C", "2025-07-01", "Pkg", 99, 3, 297, 0, 0, none⟩)], 2⟩,
       ⟨2, 0, 1, 0, [("MDB", "StoreB")]⟩) := by
  refine ⟨?_, by decide⟩
  intro now cache st stats seen r hnone
  by_cases hs : r.org_code ∈ seen <;>
    simp [Supa.processSupaEquity, hnone, hs]

/-- Closed instance of C4's per-record part: processing the unresolvable
middle record alone skips it and records the unknown store. -/
theorem C4_unknown_store_isolation_witness :
    (Supa.processSupaEquity 1 c4cache (c4st, ⟨0, 0, 0, 0, []⟩, []) c4r2).1 = c4st ∧
    (Supa.processSupaEquity 1 c4cache (c4st, ⟨0, 0, 0, 0, []⟩, []) c4r2).2.1.skipped = 1 := by
  have h := C4_unknown_store_isolation.1 1 c4cache c4st ⟨0, 0, 0, 0, []⟩ [] c4r2 (by decide)
  exact ⟨h.1, h.2.1⟩

/-! ## Claim C5 — name-based identity resolution order -/

/-- C5: `get_restaurant_id_by_name` resolves: (a) through the alias table
when the translated canonical name is cached; (b) else by exact cache hit;
(c) else by the first cache entry containing or contained in the name; and
returns `None` when all fail.  On alias {"Old Name" → "Canonical"} and
cache {"Canonical" ↦ id1, "Other Store" ↦ id2}: "Old Name" ↦ id1,
"Other Store" ↦ id2, "Oth" ↦ id2, "Nonexistent" ↦ none. -/
theorem C5_identity_resolution_order :
    (∀ (name_map name_cache : List (String × String)) (store_name mapped rid : String),
      alistFind store_name name_map = some mapped →
      alistFind mapped name_cache = some rid →
      Supa.get_restaurant_id_by_name name_map name_cache store_name = some rid) ∧
    (∀ (name_map name_cache : List (String × String)) (store_name rid : String),
      (∀ mapped, alistFind store_name name_map = some mapped →
        alistFind mapped name_cache = none) →
      alistFind store_name name_cache = some rid →
      Supa.get_restaurant_id_by_name name_map name_cache store_name = some rid) ∧
    (∀ (name_map name_cache : List (String × String)) (store_name : String),
      (∀ mapped, alistFind store_name name_map = some mapped →
        alistFind mapped name_cache = none) →
      alistFind store_name name_cache = none →
      Supa.get_restaurant_id_by_name name_map name_cache store_name =
        (name_cache.find?
          (fun p => pyInStr p.1 store_name || pyInStr store_name p.1)).map Prod.snd) ∧
    Supa.get_restaurant_id_by_name c5map c5cache "Old Name" = some "id1" ∧
    Supa.get_restaurant_id_by_name c5map c5cache "Other Store" = some "id2" ∧
    Supa.get_restaurant_id_by_name c5map c5cache "Oth" = some "id2" ∧
    Supa.get_restaurant_id_by_name c5map c5cache "Nonexistent" = none := by
  refine ⟨?_, ?_, ?_, by decide, by decide, by decide, by decide⟩
  · intro name_map name_cache store_name mapped rid hmap hcache
    simp [Supa.get_restaurant_id_by_name, hmap, hcache]
  · intro name_map name_cache store_name rid hnoalias hcache
    match halias : alistFind store_name name_map with
    | none => simp [Supa.get_restaurant_id_by_name, halias, hcache]
    | some mapped =>
      have := hnoalias mapped halias
      simp [Supa.get_restaurant_id_by_name, halias, this, hcache]
  · intro name_map name_cache store_name hnoalias hcache
    match hfuzzy : name_cache.find?
        (fun p => pyInStr p.1 store_name || pyInStr store_name p.1) with
    | none =>
      match halias : alistFind store_name name_map with
      | none => simp [Supa.get_restaurant_id_by_name, halias, hcache, hfuzzy]
      | some mapped =>
        have := hnoalias mapped halias
        simp [Supa.get_restaurant_id_by_name, halias, this, hcache, hfuzzy]
    | some p =>
      match halias : alistFind store_name name_map with
      | none => simp [Supa.get_restaurant_id_by_name, halias, hcache, hfuzzy]
      | some mapped =>
        have := hnoalias mapped halias
        simp [Supa.get_restaurant_id_by_name, halias, this, hcache, hfuzzy]

/-- Closed instance of C5's alias path at the sample tables. -/
theorem C5_identity_resolution_order_witness :
    Supa.get_restaurant_id_by_name c5map c5cache "Old Name" = some "id1" :=
  C5_identity_resolution_order.1 c5map c5cache "Old Name" "Canonical" "id1"
    (by decide) (by decide)

/-! ## Claim C6 — sync moves exactly the set difference, through the
conditional-merge write paths -/

/-- C6: a pull transfers exactly the cloud records (with a resolvable org
code) whose translated key is absent locally, and a push transfers exactly
the local records whose key is absent from the cloud key set; both write
through the destination's conditional-merge save.  On local {A,B,C} and
cloud {B,C,D}, the pull list's keys are exactly [D] and the push list's
keys exactly [A]. -/
theorem C6_sync_set_difference :
    (∀ (now : Nat) (cloud : List Sync.CloudEquityRecord) (db : DB.EquityDB)
        (r : DB.EquityRecord),
      r ∈ (Sync.pull_equity_package_sales now cloud db).2 →
      (r.org_code, r.date, r.package_name) ∉ Sync.localEquityKeys db ∧
      ∃ cr ∈ cloud, Sync.cloudOrgCode cr = some r.org_code ∧
        r = Sync.pullRecordOf r.org_code cr) ∧
    (∀ (now : Nat) (cloud : List Sync.CloudEquityRecord) (db : DB.EquityDB)
        (cr : Sync.CloudEquityRecord) (org : String),
      cr ∈ cloud → Sync.cloudOrgCode cr = some org →
      (org, cr.date, cr.package_name) ∉ Sync.localEquityKeys db →
      Sync.pullRecordOf org cr ∈ (Sync.pull_equity_package_sales now cloud db).2) ∧
    (∀ (now : Nat) (cloud : List Sync.CloudEquityRecord) (db : DB.EquityDB),
      (Sync.pull_equity_package_sales now cloud db).1 =
        (DB.save_equity_package_sales now db
          (Sync.pull_equity_package_sales now cloud db).2).1) ∧
    (∀ (now : Nat) (ck : List DB.EquityKey) (cache : List (String × String))
        (db : DB.EquityDB) (supa : Supa.SupaState) (r : DB.EquityRecord),
      r ∈ (Sync.push_equity_package_sales now ck cache db supa).2 ↔
        (r ∈ Sync.get_equity_sales db ∧
          (r.org_code, r.date, r.package_name) ∉ ck)) ∧
    (∀ (now : Nat) (ck : List DB.EquityKey) (cache : List (String × String))
        (db : DB.EquityDB) (supa : Supa.SupaState),
      (Sync.push_equity_package_sales now ck cache db supa).1 =
        (Supa.save_equity_package_sales now cache supa
          (Sync.push_equity_package_sales now ck cache db supa).2).1) ∧
    ((Sync.pull_equity_package_sales 1 c6cloud c6db).2).map
      (fun r => (r.org_code, r.date, r.package_name)) = [c6keyD] ∧
    ((Sync.push_equity_package_sales 1 [c6keyB, c6keyC, c6keyD]
        [("MD1", "rid")] c6db ⟨[], 0⟩).2).map
      (fun r => (r.org_code, r.date, r.package_name)) = [c6keyA] := by
  refine ⟨?_, ?_, fun _ _ _ => rfl, ?_, fun _ _ _ _ _ => rfl, by decide, by decide⟩
  · intro now cloud db r hmem
    obtain ⟨cr, hcr, heq⟩ := List.mem_filterMap.1 hmem
    match horg : Sync.cloudOrgCode cr with
    | none => simp [horg] at heq
    | some org =>
      rw [horg] at heq
      have heq2 : (if (org, cr.date, cr.package_name) ∈ Sync.localEquityKeys db
          then none else some (Sync.pullRecordOf org cr)) = some r := heq
      by_cases hk : (org, cr.date, cr.package_name) ∈ Sync.localEquityKeys db
      · simp [hk] at heq2
      · rw [if_neg hk] at heq2
        obtain rfl := Option.some_injective _ heq2
        refine ⟨?_, cr, hcr, ?_, rfl⟩
        · simpa [Sync.pullRecordOf] using hk
        · simpa [Sync.pullRecordOf] using horg
  · intro now cloud db cr org hcr horg hk
    refine List.mem_filterMap.2 ⟨cr, hcr, ?_⟩
    rw [horg]
    show (if (org, cr.date, cr.package_name) ∈ Sync.localEquityKeys db
        then none else some (Sync.pullRecordOf org cr)) = some (Sync.pullRecordOf org cr)
    rw [if_neg hk]
  · intro now ck cache db supa r
    simp [Sync.push_equity_package_sales, List.mem_filter]

/-- Closed instance of C6's pull direction: the cloud record with key D is
transferred because D is absent locally. -/
theorem C6_sync_set_difference_witness :
    Sync.pullRecordOf "MD1" (c6cloudRec "2025-08-04") ∈
      (Sync.pull_equity_package_sales 1 c6cloud c6db).2 :=
  C6_sync_set_difference.2.1 1 c6cloud c6db (c6cloudRec "2025-08-04") "MD1"
    (by decide) (by decide) (by decide)

/-! ## Claim C10 — batch writers swallow database errors and return the
partial stats -/

/-- C10: each of the three local batch writers, run under a fault oracle
modelling a `sqlite3.Error` raised mid-batch, still returns a stats record
(inserted/updated/skipped — by the return type) equal to the stats of a
clean run over the prefix of records processed before the first fault;
with no fault the two runs agree on the whole batch. -/
theorem C10_batch_errors_return_partial_stats :
    (∀ (now : Nat) (err : Nat → Bool) (db : DB.EquityDB)
        (records : List DB.EquityRecord),
      DB.save_equity_package_sales_faulty now err db records =
        (DB.save_equity_package_sales now db
          (records.take (DB.firstFault err records.length))).2) ∧
    (∀ (now : Nat) (err : Nat → Bool) (records : List DB.BusinessRecord)
        (force : Bool) (tbl : List (DB.BusinessKey × DB.BusinessRow)),
      DB.save_business_summary_faulty now err records force tbl =
        (DB.save_business_summary now
          (records.take (DB.firstFault err records.length)) force tbl).2) ∧
    (∀ (now : Nat) (err : Nat → Bool) (records : List DB.DishRecord)
        (force : Bool) (tbl : List (DB.DishKey × DB.DishRow)),
      DB.save_dish_sales_faulty now err records force tbl =
        (DB.save_dish_sales now
          (records.take (DB.firstFault err records.length)) force tbl).2) :=
  ⟨fun _ err _ records => runBatchFaulty_eq_prefix _ err _ _ records,
   fun _ err records _ _ => runBatchFaulty_eq_prefix _ err _ _ records,
   fun _ err records _ _ => runBatchFaulty_eq_prefix _ err _ _ records⟩

end MtSpec
